import Mathlib

/-!
Verification of a WebSocket server (RFC 6455 subset).

We give a shallow embedding of `src/server.py` (class `WebSocketServer`):
bytes are `Nat` (values below 256 on realistic inputs), byte streams are
`List Nat`, the blocking socket is modelled by `recvN` (a `recv n` call
returns `min n remaining` bytes, fewer only when the peer has closed),
Python exceptions are `Option.none` / an error step result, and the
per-connection frame loop is a step function over the loop's mutable
locals (`fragmented_message`, `fragmented_opcode`).
-/

namespace WS

/-- Big-endian encoding of `n` into `k` bytes, as produced by
`struct.pack` with formats `!H` (k = 2) and `!Q` (k = 8) on arguments
in range.  `packBE (k+1) n` emits the most significant byte first. -/
def packBE : Nat → Nat → List Nat
  | 0, _ => []
  | k + 1, n => (n / 256 ^ k) % 256 :: packBE k n

/-- Big-endian decoding of a byte list, as done by `struct.unpack`
with formats `>H` / `>Q` on a buffer of the exact expected size. -/
def unpackBE (bs : List Nat) : Nat :=
  bs.foldl (fun a b => a * 256 + b) 0

theorem packBE_length (k n : Nat) : (packBE k n).length = k := by
  induction k generalizing n with
  | zero => rfl
  | succ k ih => simp [packBE, ih]

theorem unpackBE_foldl (k : Nat) : ∀ (n a : Nat),
    (packBE k n).foldl (fun x b => x * 256 + b) a = a * 256 ^ k + n % 256 ^ k := by
  induction k with
  | zero => intro n a; simp [packBE, Nat.mod_one]
  | succ k ih =>
    intro n a
    simp only [packBE, List.foldl_cons]
    rw [ih]
    have h1 : n / 256 ^ k % 256 = n % (256 ^ k * 256) / 256 ^ k :=
      (Nat.mod_mul_right_div_self n (256 ^ k) 256).symm
    have h2 : n % 256 ^ k = n % (256 ^ k * 256) % 256 ^ k :=
      (Nat.mod_mod_of_dvd n ⟨256, rfl⟩).symm
    have h3 : 256 ^ (k + 1) = 256 ^ k * 256 := by ring
    rw [h3, h1, h2]
    have h4 : 256 ^ k * (n % (256 ^ k * 256) / 256 ^ k) + n % (256 ^ k * 256) % 256 ^ k
        = n % (256 ^ k * 256) := Nat.div_add_mod (n % (256 ^ k * 256)) (256 ^ k)
    calc (a * 256 + n % (256 ^ k * 256) / 256 ^ k) * 256 ^ k + n % (256 ^ k * 256) % 256 ^ k
        = a * (256 ^ k * 256)
          + (256 ^ k * (n % (256 ^ k * 256) / 256 ^ k) + n % (256 ^ k * 256) % 256 ^ k) := by
          ring
      _ = a * (256 ^ k * 256) + n % (256 ^ k * 256) := by rw [h4]

theorem unpackBE_packBE {k n : Nat} (h : n < 256 ^ k) :
    unpackBE (packBE k n) = n := by
  have := unpackBE_foldl k n 0
  simpa [unpackBE, Nat.mod_eq_of_lt h] using this

/-- The blocking read `client_socket.recv n` on a stream whose peer
sends `s` and then closes: it returns up to `n` bytes (all of `s` when
fewer than `n` remain) together with the remaining stream. -/
def recvN (n : Nat) (s : List Nat) : List Nat × List Nat :=
  (s.take n, s.drop n)

/-- The dictionary returned by `receive_frame`. -/
structure Frame where
  fin : Bool
  opcode : Nat
  mask : Bool
  payload_length : Nat
  payload : List Nat
deriving DecidableEq

/-- Model of `unmask_payload`: XOR byte `i` of the payload with byte `i mod 4`
of the masking key. -/
def unmask_payload (payload masking_key : List Nat) : List Nat :=
  (List.range payload.length).map
    (fun i => payload.getD i 0 ^^^ masking_key.getD (i % 4) 0)

/-- Resolution of the extended payload length in `receive_frame`:
an indicator of 126 reads two more bytes as a 16-bit big-endian
length, 127 reads eight more bytes as a 64-bit big-endian length,
anything else is the length itself.  `struct.unpack` raises (hence
`none`) when the buffer returned by `recv` is shorter than requested. -/
def read_length (ind : Nat) (s : List Nat) : Option (Nat × List Nat) :=
  if ind = 126 then
    let r := recvN 2 s
    if r.1.length = 2 then some (unpackBE r.1, r.2) else none
  else if ind = 127 then
    let r := recvN 8 s
    if r.1.length = 8 then some (unpackBE r.1, r.2) else none
  else
    some (ind, s)

/-- Body of `receive_frame` after the two header bytes have been read.
`fin` is bit 7 of byte 0, the opcode its low 4 bits; `mask` is bit 7 of
byte 1, the length indicator its low 7 bits.  If `mask` is set, four
bytes of masking key are read (the source does not check that four
bytes actually arrive); the payload read is a single `recv` of the
declared length, so it may come back short.  Unmasking indexes the
masking key, which raises `IndexError` (hence `none`) exactly when the
key is shorter than 4 bytes and than the payload. -/
def receive_frame_body (b0 b1 : Nat) (s1 : List Nat) : Option (Frame × List Nat) :=
  let fin := (b0 &&& 128) != 0
  let opcode := b0 &&& 15
  let mask := (b1 &&& 128) != 0
  match read_length (b1 &&& 127) s1 with
  | none => none
  | some (plen, s2) =>
    let km := if mask then recvN 4 s2 else ([], s2)
    let pm := recvN plen km.2
    if mask then
      if km.1.length < 4 ∧ km.1.length < pm.1.length then none
      else some (⟨fin, opcode, mask, plen, unmask_payload pm.1 km.1⟩, pm.2)
    else
      some (⟨fin, opcode, mask, plen, pm.1⟩, pm.2)

/-- Model of `receive_frame`: reads and parses one WebSocket frame from the
stream.  An empty header read means the client closed the connection
(the source raises); a one-byte header makes `header[1]` raise
`IndexError`.  Both surface as `none`. -/
def receive_frame (s : List Nat) : Option (Frame × List Nat) :=
  match s with
  | b0 :: b1 :: rest => receive_frame_body b0 b1 rest
  | _ => none

/-- Model of `send_frame`: byte 0 is `0b10000000 | opcode` (FIN always set, as
in the source), then the length encoding (≤ 125 inline, ≤ 65535 as
indicator 126 plus 2 bytes big-endian, else indicator 127 plus 8 bytes
big-endian), then the raw unmasked payload. -/
def send_frame (payload : List Nat) (opcode : Nat) : List Nat :=
  let header :=
    if payload.length ≤ 125 then
      [128 ||| opcode, payload.length]
    else if payload.length ≤ 65535 then
      (128 ||| opcode) :: 126 :: packBE 2 payload.length
    else
      (128 ||| opcode) :: 127 :: packBE 8 payload.length
  header ++ payload

theorem and_eq_zero_of_lt {n : Nat} (h : n < 128) : n &&& 128 = 0 := by
  apply Nat.eq_of_testBit_eq
  intro i
  rw [Nat.testBit_and, Nat.zero_testBit]
  by_cases h7 : i = 7
  · subst h7
    rw [Nat.testBit_lt_two_pow (x := n) (i := 7) (by omega)]
    rfl
  · have h128 : (128 : Nat) = 2 ^ 7 := by norm_num
    rw [h128, Nat.testBit_two_pow]
    have : (7 : Nat) ≠ i := fun hh => h7 hh.symm
    simp [this]

theorem and_127_eq_of_lt {n : Nat} (h : n < 128) : n &&& 127 = n := by
  have : (127 : Nat) = 2 ^ 7 - 1 := by norm_num
  rw [this, Nat.and_pow_two_sub_one_of_lt_two_pow (by omega)]

theorem header_fin_bit (opcode : Nat) : ((128 ||| opcode) &&& 128) ≠ 0 := by
  intro h
  have := congrArg (Nat.testBit · 7) h
  simp only [Nat.testBit_and, Nat.testBit_or, Nat.zero_testBit] at this
  have h128 : Nat.testBit 128 7 = true := by decide
  rw [h128] at this
  simp at this

theorem header_opcode_bits {opcode : Nat} (h : opcode < 16) :
    (128 ||| opcode) &&& 15 = opcode := by
  interval_cases opcode <;> decide

theorem header_fin_true (opcode : Nat) :
    (((128 ||| opcode) &&& 128) != 0) = true := by
  simpa [bne_iff_ne] using header_fin_bit opcode

/-- C1: for every valid (fin, opcode, payload) triple — `send_frame`
emits only fin = true, as it hard-wires the FIN bit — decoding the
byte sequence produced by `send_frame payload opcode` yields the
original fin, opcode and payload (for every payload length
representable in the 64-bit length field, hence in particular for
lengths 0, 125, 126, 65535 and 65536 exercising all three
length-encoding branches), the decoded frame is unmasked, and the
whole stream is consumed. -/
theorem read_length_small {ind : Nat} (h126 : ind ≠ 126) (h127 : ind ≠ 127)
    (s : List Nat) : read_length ind s = some (ind, s) := by
  simp [read_length, h126, h127]

theorem read_length_ext16 (L : Nat) (hL : L < 65536) (t : List Nat) :
    read_length 126 (packBE 2 L ++ t) = some (L, t) := by
  have hp : (packBE 2 L).length = 2 := packBE_length 2 L
  simp [read_length, recvN, List.take_left' hp, List.drop_left' hp, hp,
    unpackBE_packBE (show L < 256 ^ 2 by omega)]

theorem read_length_ext64 (L : Nat) (hL : L < 2 ^ 64) (t : List Nat) :
    read_length 127 (packBE 8 L ++ t) = some (L, t) := by
  have hp : (packBE 8 L).length = 8 := packBE_length 8 L
  have hL' : L < 256 ^ 8 := by
    calc L < 2 ^ 64 := hL
      _ = 256 ^ 8 := by norm_num
  simp [read_length, recvN, List.take_left' hp, List.drop_left' hp, hp,
    unpackBE_packBE hL']

theorem receive_frame_body_nomask (b0 b1 : Nat) (h128 : b1 &&& 128 = 0)
    (s1 : List Nat) :
    receive_frame_body b0 b1 s1 =
      match read_length (b1 &&& 127) s1 with
      | none => none
      | some (plen, s2) =>
        some (⟨(b0 &&& 128) != 0, b0 &&& 15, false, plen,
          s2.take plen⟩, s2.drop plen) := by
  simp only [receive_frame_body, h128, recvN]
  rfl

theorem decode_encode_roundtrip (payload : List Nat) (opcode : Nat)
    (hop : opcode ∈ [0, 1, 2, 8, 9, 10])
    (hlen : payload.length < 2 ^ 64) :
    receive_frame (send_frame payload opcode)
      = some (⟨true, opcode, false, payload.length, payload⟩, []) := by
  have hop16 : opcode < 16 := by
    simp only [List.mem_cons, List.not_mem_nil, or_false] at hop
    rcases hop with rfl | rfl | rfl | rfl | rfl | rfl <;> omega
  have hfin := header_fin_true opcode
  have hopc := header_opcode_bits hop16
  by_cases hA : payload.length ≤ 125
  · rw [send_frame]
    simp only [if_pos hA, List.cons_append, List.nil_append, receive_frame]
    rw [receive_frame_body_nomask _ _ (and_eq_zero_of_lt (by omega)),
      and_127_eq_of_lt (show payload.length < 128 by omega),
      read_length_small (by omega) (by omega)]
    simp [hfin, hopc]
  · by_cases hB : payload.length ≤ 65535
    · rw [send_frame]
      simp only [if_neg hA, if_pos hB, List.cons_append, List.nil_append,
        receive_frame]
      rw [receive_frame_body_nomask _ _ (by decide),
        (by decide : (126 : Nat) &&& 127 = 126),
        read_length_ext16 _ (by omega)]
      simp [hfin, hopc]
    · rw [send_frame]
      simp only [if_neg hA, if_neg hB, List.cons_append, List.nil_append,
        receive_frame]
      rw [receive_frame_body_nomask _ _ (by decide),
        (by decide : (127 : Nat) &&& 127 = 127),
        read_length_ext64 _ hlen]
      simp [hfin, hopc]

/-- Witness for C1 at a concrete input: opcode 2 with a 3-byte
payload round-trips. -/
theorem decode_encode_roundtrip_witness :
    receive_frame (send_frame [7, 8, 9] 2)
      = some (⟨true, 2, false, 3, [7, 8, 9]⟩, []) :=
  decode_encode_roundtrip [7, 8, 9] 2 (by decide) (by decide)

/-- Whether a byte is a UTF-8 continuation byte (`0x80`–`0xBF`). -/
def isContByte (b : Nat) : Bool := 128 ≤ b && b ≤ 191

/-- Validity of a byte sequence as UTF-8, exactly the condition under
which Python's `bytes.decode` with encoding `utf-8` succeeds: RFC 3629
sequences, rejecting overlong forms, surrogates and code points above
`U+10FFFF`. -/
def validUtf8 : List Nat → Bool
  | [] => true
  | b :: rest =>
    if b ≤ 127 then validUtf8 rest
    else if 194 ≤ b && b ≤ 223 then
      match rest with
      | c1 :: r => isContByte c1 && validUtf8 r
      | [] => false
    else if b == 224 then
      match rest with
      | c1 :: c2 :: r => (160 ≤ c1 && c1 ≤ 191) && isContByte c2 && validUtf8 r
      | _ => false
    else if (225 ≤ b && b ≤ 236) || (238 ≤ b && b ≤ 239) then
      match rest with
      | c1 :: c2 :: r => isContByte c1 && isContByte c2 && validUtf8 r
      | _ => false
    else if b == 237 then
      match rest with
      | c1 :: c2 :: r => (128 ≤ c1 && c1 ≤ 159) && isContByte c2 && validUtf8 r
      | _ => false
    else if b == 240 then
      match rest with
      | c1 :: c2 :: c3 :: r =>
        (144 ≤ c1 && c1 ≤ 191) && isContByte c2 && isContByte c3 && validUtf8 r
      | _ => false
    else if 241 ≤ b && b ≤ 243 then
      match rest with
      | c1 :: c2 :: c3 :: r =>
        isContByte c1 && isContByte c2 && isContByte c3 && validUtf8 r
      | _ => false
    else if b == 244 then
      match rest with
      | c1 :: c2 :: c3 :: r =>
        (128 ≤ c1 && c1 ≤ 143) && isContByte c2 && isContByte c3 && validUtf8 r
      | _ => false
    else false

/-- Observable actions of the frame loop: a completed message handed
to the application handler (which echoes it), and a frame written to
the socket (always sent through `send_frame`, so fin = 1, unmasked). -/
inductive Out where
  | deliver (opcode : Nat) (payload : List Nat)
  | send (opcode : Nat) (payload : List Nat)
deriving DecidableEq

/-- The loop-local mutable variables of `handle_websocket_frames`. -/
structure LoopState where
  fragmented_message : List Nat
  fragmented_opcode : Option Nat
deriving DecidableEq

/-- The UTF-8 bytes of the string literal `"Protocol error"`. -/
def protocolErrorReason : List Nat :=
  [80, 114, 111, 116, 111, 99, 111, 108, 32, 101, 114, 114, 111, 114]

/-- Model of `send_close_frame code reason`: writes a close frame (opcode 8)
whose payload is the 2-byte big-endian code followed by the UTF-8
reason bytes. -/
def closeOut (code : Nat) (reason : List Nat) : Out :=
  .send 8 (packBE 2 code ++ reason)

/-- Model of `handle_complete_message`: a Text message is UTF-8 decoded (an
invalid byte sequence raises, modelled as `none`) and echoed back as a
Text frame — Python's decode-then-encode is the identity on the bytes —
and a Binary message is echoed back verbatim as a Binary frame. -/
def handle_complete_message (opcode : Nat) (payload : List Nat) :
    Option (List Out) :=
  if opcode = 1 then
    if validUtf8 payload then some [.deliver 1 payload, .send 1 payload]
    else none
  else if opcode = 2 then
    some [.deliver 2 payload, .send 2 payload]
  else some []

/-- Result of one iteration of the frame loop: continue with updated
loop variables, or leave the loop (after a close frame, or after an
exception was caught and answered with a 1002 close). -/
inductive StepResult where
  | next (s : LoopState) (outs : List Out)
  | stop (outs : List Out)
deriving DecidableEq

/-- The `except` arm of the loop: any exception is caught, a Close
frame with code 1002 and reason "Protocol error" is sent, and the
loop breaks. -/
def protocolError : StepResult := .stop [closeOut 1002 protocolErrorReason]

/-- One iteration of the `while True` loop of
`handle_websocket_frames`, given the decoded frame.
* Continuation (0x0): without a pending fragmented opcode it raises;
  otherwise the payload is appended to the buffer and, when fin is
  set, the buffered message is completed and the loop variables reset.
* Text/Binary (0x1/0x2): with a fragment pending it raises; when fin
  is set the payload is a complete message; otherwise the loop
  variables record the new fragmented message.
* Close (0x8): a payload of at least 2 bytes carries a big-endian
  code and a UTF-8 reason (an invalid reason, or a code that does not
  fit `struct.pack` format `!H` when echoed, raises); otherwise code
  1000 and empty reason are used.  The same code and reason are
  echoed in a Close frame and the loop breaks.
* Ping (0x9): a Pong frame carrying the identical payload is sent.
* Pong (0xA): no action.
* Anything else raises. -/
def step (s : LoopState) (f : Frame) : StepResult :=
  if f.opcode = 0 then
    match s.fragmented_opcode with
    | none => protocolError
    | some fop =>
      let buf := s.fragmented_message ++ f.payload
      if f.fin then
        match handle_complete_message fop buf with
        | none => protocolError
        | some outs => .next ⟨[], none⟩ outs
      else .next ⟨buf, some fop⟩ []
  else if f.opcode = 1 ∨ f.opcode = 2 then
    match s.fragmented_opcode with
    | some _ => protocolError
    | none =>
      if f.fin then
        match handle_complete_message f.opcode f.payload with
        | none => protocolError
        | some outs => .next s outs
      else .next ⟨f.payload, some f.opcode⟩ []
  else if f.opcode = 8 then
    if f.payload.length < 2 then .stop [closeOut 1000 []]
    else
      let code := unpackBE (f.payload.take 2)
      if validUtf8 (f.payload.drop 2) ∧ code < 65536 then
        .stop [closeOut code (f.payload.drop 2)]
      else protocolError
  else if f.opcode = 9 then .next s [.send 10 f.payload]
  else if f.opcode = 10 then .next s []
  else protocolError

/-- Run of `handle_websocket_frames` over a list of successively
received frames.  The result collects the observable actions in order
and ends with `some` of the loop variables when the frame list is
exhausted with the loop still running, or `none` when the loop
terminated (`break`). -/
def run (s : LoopState) : List Frame → List Out × Option LoopState
  | [] => ([], some s)
  | f :: fs =>
    match step s f with
    | .next s2 outs =>
      let r := run s2 fs
      (outs ++ r.1, r.2)
    | .stop outs => (outs, none)

/-- A list of non-final continuation frames carrying the given
payloads. -/
def contFrames (ps : List (List Nat)) : List Frame :=
  ps.map (fun p => ⟨false, 0, false, p.length, p⟩)

theorem contFrames_cons (p : List Nat) (ps : List (List Nat)) :
    contFrames (p :: ps) = ⟨false, 0, false, p.length, p⟩ :: contFrames ps :=
  rfl

theorem run_contFrames (op : Nat) (ps : List (List Nat)) (acc : List Nat)
    (rest : List Frame) :
    run ⟨acc, some op⟩ (contFrames ps ++ rest)
      = run ⟨acc ++ ps.flatten, some op⟩ rest := by
  induction ps generalizing acc with
  | nil => simp [contFrames]
  | cons p ps ih =>
    have hstep : step ⟨acc, some op⟩ ⟨false, 0, false, p.length, p⟩
        = .next ⟨acc ++ p, some op⟩ [] := rfl
    rw [contFrames_cons, List.cons_append]
    simp only [run, hstep, List.nil_append, Prod.mk.eta]
    rw [ih (acc ++ p)]
    simp only [List.flatten_cons, List.append_assoc]

/-- C2: with no fragmentation pending, a Text or Binary frame with
fin = false, followed by any number of non-final continuation frames
and one final continuation frame, invokes the application handler
exactly once, with the first frame's opcode and the byte-concatenation
of all the fragment payloads in receipt order (echoed back as one
frame of the same opcode), after which the pending state is cleared
(for a Text message the reassembled bytes must be valid UTF-8,
otherwise the decode raises instead of delivering). -/
theorem fragmented_message_reassembled_once (buf : List Nat) (op : Nat)
    (p0 plast : List Nat) (ps : List (List Nat))
    (hop : op = 1 ∨ op = 2)
    (hutf : op = 1 → validUtf8 (p0 ++ ps.flatten ++ plast) = true) :
    run ⟨buf, none⟩
        (⟨false, op, false, p0.length, p0⟩
          :: (contFrames ps ++ [⟨true, 0, false, plast.length, plast⟩]))
      = ([.deliver op (p0 ++ ps.flatten ++ plast),
          .send op (p0 ++ ps.flatten ++ plast)], some ⟨[], none⟩) := by
  rcases hop with rfl | rfl
  · have h1 : step ⟨buf, none⟩ ⟨false, 1, false, p0.length, p0⟩
        = .next ⟨p0, some 1⟩ [] := rfl
    have hv : validUtf8 ((p0 ++ ps.flatten) ++ plast) = true := hutf rfl
    have hcm : handle_complete_message 1 ((p0 ++ ps.flatten) ++ plast)
        = some [.deliver 1 ((p0 ++ ps.flatten) ++ plast),
                .send 1 ((p0 ++ ps.flatten) ++ plast)] := by
      unfold handle_complete_message
      rw [if_pos rfl, if_pos hv]
    have h2 : step ⟨p0 ++ ps.flatten, some 1⟩
        ⟨true, 0, false, plast.length, plast⟩
        = .next ⟨[], none⟩
            [.deliver 1 ((p0 ++ ps.flatten) ++ plast),
             .send 1 ((p0 ++ ps.flatten) ++ plast)] := by
      show (match handle_complete_message 1 ((p0 ++ ps.flatten) ++ plast) with
        | none => protocolError
        | some outs => StepResult.next ⟨[], none⟩ outs) = _
      rw [hcm]
    simp only [run, h1, List.nil_append, Prod.mk.eta]
    rw [run_contFrames]
    simp only [run, h2, List.append_nil, List.append_assoc]
  · have h1 : step ⟨buf, none⟩ ⟨false, 2, false, p0.length, p0⟩
        = .next ⟨p0, some 2⟩ [] := rfl
    have h2 : step ⟨p0 ++ ps.flatten, some 2⟩
        ⟨true, 0, false, plast.length, plast⟩
        = .next ⟨[], none⟩
            [.deliver 2 ((p0 ++ ps.flatten) ++ plast),
             .send 2 ((p0 ++ ps.flatten) ++ plast)] := rfl
    simp only [run, h1, List.nil_append, Prod.mk.eta]
    rw [run_contFrames]
    simp only [run, h2, List.append_nil, List.append_assoc]

/-- Witness for C2: a Binary message fragmented as [1], [2], [3] is
delivered once as [1, 2, 3] and echoed, and the pending state is
cleared. -/
theorem fragmented_message_reassembled_once_witness :
    run ⟨[], none⟩
        (⟨false, 2, false, 1, [1]⟩
          :: (contFrames [[2]] ++ [⟨true, 0, false, 1, [3]⟩]))
      = ([.deliver 2 ([1] ++ [[2]].flatten ++ [3]),
          .send 2 ([1] ++ [[2]].flatten ++ [3])], some ⟨[], none⟩) :=
  fragmented_message_reassembled_once [] 2 [1] [3] [[2]] (Or.inr rfl)
    (by decide)

/-- C3: while a fragmentation sequence is open (a fragmented opcode is
pending), a new Text or Binary frame — whatever its fin bit — raises,
so the server sends a Close frame with code 1002 ("Protocol error")
and the per-connection loop terminates, ignoring any further frames. -/
theorem data_frame_during_fragmentation_rejected (buf : List Nat)
    (fop : Nat) (fin : Bool) (op : Nat) (plen : Nat) (p : List Nat)
    (fs : List Frame) (hop : op = 1 ∨ op = 2) :
    run ⟨buf, some fop⟩ (⟨fin, op, false, plen, p⟩ :: fs)
      = ([closeOut 1002 protocolErrorReason], none) := by
  rcases hop with rfl | rfl <;> rfl

/-- Witness for C3: with a Text fragmentation open, a final Binary
frame yields the 1002 close and ends the loop. -/
theorem data_frame_during_fragmentation_rejected_witness :
    run ⟨[5], some 1⟩ [⟨true, 2, false, 0, []⟩]
      = ([closeOut 1002 protocolErrorReason], none) :=
  data_frame_during_fragmentation_rejected [5] 1 true 2 0 [] []
    (Or.inr rfl)

/-- C4 (amended): a received Close frame is answered with a Close
frame carrying the same big-endian status code and the same reason
bytes (defaulting to code 1000 and empty reason when the payload is
shorter than 2 bytes), and the loop exits — provided the payload is
made of bytes and the reason bytes are valid UTF-8; an invalid reason
raises and is answered with a 1002 close instead (see the
counterexample). -/
theorem close_frame_echoed (s : LoopState) (fin : Bool) (p : List Nat)
    (fs : List Frame)
    (hbytes : ∀ b ∈ p, b < 256)
    (hutf : validUtf8 (p.drop 2) = true) :
    run s (⟨fin, 8, false, p.length, p⟩ :: fs)
      = ([closeOut (if 2 ≤ p.length then unpackBE (p.take 2) else 1000)
            (p.drop 2)], none) := by
  have hstep : step s ⟨fin, 8, false, p.length, p⟩
      = if p.length < 2 then .stop [closeOut 1000 []]
        else if validUtf8 (p.drop 2) ∧ unpackBE (p.take 2) < 65536 then
          .stop [closeOut (unpackBE (p.take 2)) (p.drop 2)]
        else protocolError := rfl
  match p, hbytes with
  | [], _ =>
    simp only [run, hstep]
    norm_num
  | [a], _ =>
    simp only [run, hstep]
    norm_num
  | a :: b :: t, hbytes =>
    have ha : a < 256 := hbytes a (by simp)
    have hb : b < 256 := hbytes b (by simp)
    have hcode : unpackBE ((a :: b :: t).take 2) < 65536 := by
      show unpackBE [a, b] < 65536
      simp only [unpackBE, List.foldl_cons, List.foldl_nil]
      omega
    have hlen : ¬ (a :: b :: t).length < 2 := by simp
    simp only [run, hstep, if_neg hlen, if_pos (And.intro hutf hcode)]
    simp

/-- Witness for C4: close payload 0x03 0xE8 ++ "bye" is echoed as a
Close with code 1000 and reason "bye". -/
theorem close_frame_echoed_witness :
    run ⟨[], none⟩ [⟨true, 8, false, 5, [3, 232, 98, 121, 101]⟩]
      = ([closeOut
            (if 2 ≤ ([3, 232, 98, 121, 101] : List Nat).length then
              unpackBE (([3, 232, 98, 121, 101] : List Nat).take 2)
            else 1000)
            (([3, 232, 98, 121, 101] : List Nat).drop 2)], none) :=
  close_frame_echoed ⟨[], none⟩ true [3, 232, 98, 121, 101] []
    (by decide) (by decide)

/-- Counterexample to C4 as stated: a Close frame whose payload is
0x03 0xE8 0xFF (code 1000 and a non-UTF-8 reason byte) is answered
with a Close carrying code 1002 and reason "Protocol error" — the
`decode` of the reason raises — not with a Close echoing code 1000
and the original reason byte. -/
theorem close_frame_echoed_counterexample :
    run ⟨[], none⟩ [⟨true, 8, false, 3, [3, 232, 255]⟩]
      = ([closeOut 1002 protocolErrorReason], none)
    ∧ closeOut 1002 protocolErrorReason ≠ closeOut 1000 [255] := by
  decide

/-- C5: a Ping frame is answered immediately with a Pong frame whose
payload is byte-for-byte the Ping's payload, and the loop state —
fragmentation buffer and pending opcode — is unchanged, so an
in-progress fragmentation is not interrupted. -/
theorem ping_answered_with_pong (s : LoopState) (fin : Bool)
    (plen : Nat) (p : List Nat) :
    step s ⟨fin, 9, false, plen, p⟩ = .next s [.send 10 p] :=
  rfl

/-- C7: the payload read in `receive_frame` is a single `recv` sized
to the declared length, with no short-read check: on a stream that
announces a 5-byte binary payload but delivers only 3 bytes before
the peer closes, `receive_frame` returns a frame — no error — whose
`payload_length` field is 5 while the payload has only 3 bytes,
violating `payload.length == payloadLength`. -/
theorem short_payload_read_not_detected :
    receive_frame [130, 5, 1, 2, 3]
      = some (⟨true, 2, false, 5, [1, 2, 3]⟩, [])
    ∧ (⟨true, 2, false, 5, [1, 2, 3]⟩ : Frame).payload.length
        ≠ (⟨true, 2, false, 5, [1, 2, 3]⟩ : Frame).payload_length := by
  decide

/-- C10: every frame emitted by `send_frame` has bit 7 of its first
byte set (fin = 1) and bit 7 of its second byte clear (mask = 0), for
every payload and every 4-bit opcode: the server never emits a
fragmented or masked frame. -/
theorem outbound_frames_final_and_unmasked (p : List Nat) (op : Nat)
    (_hop : op ≤ 15) :
    ((send_frame p op).getD 0 0).testBit 7 = true
    ∧ ((send_frame p op).getD 1 0).testBit 7 = false := by
  have h1 : (128 ||| op).testBit 7 = true := by
    rw [Nat.testBit_or, (by decide : Nat.testBit 128 7 = true)]
    rfl
  unfold send_frame
  split_ifs with hA hB
  · refine ⟨h1, ?_⟩
    show (p.length).testBit 7 = false
    exact Nat.testBit_lt_two_pow (by omega)
  · refine ⟨h1, ?_⟩
    show Nat.testBit 126 7 = false
    decide
  · refine ⟨h1, ?_⟩
    show Nat.testBit 127 7 = false
    decide

/-- Witness for C10: at opcode 2 and payload [1], the first byte has
its fin bit set and the second byte has its mask bit clear. -/
theorem outbound_frames_final_and_unmasked_witness :
    ((send_frame [1] 2).getD 0 0).testBit 7 = true
    ∧ ((send_frame [1] 2).getD 1 0).testBit 7 = false :=
  outbound_frames_final_and_unmasked [1] 2 (by decide)

/-! ## Handshake: SHA-1, base64 and header parsing -/

/-- The UTF-8 (here: ASCII) bytes of a string. -/
def strBytes (s : String) : List Nat := s.data.map Char.toNat

/-- Left rotation of a 32-bit word, on naturals below `2 ^ 32`. -/
def rotl32 (n x : Nat) : Nat :=
  ((x <<< n) % 4294967296) ||| (x >>> (32 - n))

/-- State of the SHA-1 compression function: five 32-bit words. -/
structure Sha1State where
  h0 : Nat
  h1 : Nat
  h2 : Nat
  h3 : Nat
  h4 : Nat

/-- One of the 80 rounds of the SHA-1 compression function. -/
def sha1Round (st : Sha1State) (i wi : Nat) : Sha1State :=
  let f :=
    if i < 20 then (st.h1 &&& st.h2) ||| ((st.h1 ^^^ 4294967295) &&& st.h3)
    else if i < 40 then st.h1 ^^^ st.h2 ^^^ st.h3
    else if i < 60 then
      (st.h1 &&& st.h2) ||| (st.h1 &&& st.h3) ||| (st.h2 &&& st.h3)
    else st.h1 ^^^ st.h2 ^^^ st.h3
  let k :=
    if i < 20 then 1518500249
    else if i < 40 then 1859775393
    else if i < 60 then 2400959708
    else 3395469782
  let temp := (rotl32 5 st.h0 + f + st.h4 + k + wi) % 4294967296
  ⟨temp, st.h0, rotl32 30 st.h1, st.h2, st.h3⟩

/-- Message-schedule expansion of a 16-word block to 80 words. -/
def sha1Expand (w16 : List Nat) : List Nat :=
  (List.range 64).foldl
    (fun w j =>
      let i := j + 16
      w ++ [rotl32 1 ((w.getD (i - 3) 0 ^^^ w.getD (i - 8) 0)
        ^^^ (w.getD (i - 14) 0 ^^^ w.getD (i - 16) 0))])
    w16

/-- Processing of one 64-byte block. -/
def sha1Block (st : Sha1State) (block : List Nat) : Sha1State :=
  let w16 := (List.range 16).map (fun i => unpackBE ((block.drop (4 * i)).take 4))
  let w := sha1Expand w16
  let r := (List.range 80).foldl (fun s i => sha1Round s i (w.getD i 0)) st
  ⟨(st.h0 + r.h0) % 4294967296, (st.h1 + r.h1) % 4294967296,
   (st.h2 + r.h2) % 4294967296, (st.h3 + r.h3) % 4294967296,
   (st.h4 + r.h4) % 4294967296⟩

/-- SHA-1 of a byte sequence, as `hashlib.sha1(...).digest()`: pad
with 0x80, zeros and the 64-bit big-endian bit length to a multiple
of 64 bytes, then run the compression function, producing a 20-byte
digest. -/
def sha1 (msg : List Nat) : List Nat :=
  let padZeros := (119 - msg.length % 64) % 64
  let padded := msg ++ 128 :: List.replicate padZeros 0 ++ packBE 8 (msg.length * 8)
  let blocks := (List.range (padded.length / 64)).map
    (fun i => (padded.drop (64 * i)).take 64)
  let st := blocks.foldl sha1Block
    ⟨1732584193, 4023233417, 2562383102, 271733878, 3285377520⟩
  packBE 4 st.h0 ++ packBE 4 st.h1 ++ packBE 4 st.h2
    ++ packBE 4 st.h3 ++ packBE 4 st.h4

/-- The base64 alphabet, as ASCII codes. -/
def b64chars : List Nat :=
  strBytes ("ABCDEFGHIJKLMNOPQRSTUVWXYZabcdefghijklmnopqrstuvwxyz0123456789+/")

/-- Standard base64 encoding with `=` padding, as
`base64.b64encode`. -/
def b64encode : List Nat → List Nat
  | b1 :: b2 :: b3 :: rest =>
    let n := b1 * 65536 + b2 * 256 + b3
    [b64chars.getD (n / 262144 % 64) 0, b64chars.getD (n / 4096 % 64) 0,
     b64chars.getD (n / 64 % 64) 0, b64chars.getD (n % 64) 0]
      ++ b64encode rest
  | [b1, b2] =>
    let n := b1 * 65536 + b2 * 256
    [b64chars.getD (n / 262144 % 64) 0, b64chars.getD (n / 4096 % 64) 0,
     b64chars.getD (n / 64 % 64) 0, 61]
  | [b1] =>
    let n := b1 * 65536
    [b64chars.getD (n / 262144 % 64) 0, b64chars.getD (n / 4096 % 64) 0,
     61, 61]
  | [] => []

/-- The fixed RFC 6455 GUID appended to the client key. -/
def GUID : List Nat := strBytes ("258EAFA5-E914-47DA-95CA-C5AB0DC85B11")

/-- Model of `generate_accept_key`: base64 of the SHA-1 of the key concatenated
with the GUID, on byte sequences. -/
def generate_accept_key (key : List Nat) : List Nat :=
  b64encode (sha1 (key ++ GUID))

set_option maxRecDepth 200000 in
/-- C6: for every key, the computed accept value is the base64 of the
SHA-1 of the key concatenated with the fixed GUID
"258EAFA5-E914-47DA-95CA-C5AB0DC85B11"; in particular the RFC 6455
worked example maps "dGhlIHNhbXBsZSBub25jZQ==" to
"s3pPLMBiTxaQ9kYGzzhZRbK+xOo=". -/
theorem accept_key_is_b64_sha1_of_key_guid :
    (∀ key : List Nat, generate_accept_key key = b64encode (sha1 (key ++ GUID)))
    ∧ generate_accept_key (strBytes ("dGhlIHNhbXBsZSBub25jZQ=="))
      = strBytes ("s3pPLMBiTxaQ9kYGzzhZRbK+xOo=") :=
  ⟨fun _ => rfl, by decide⟩

/-! ## Handshake request parsing -/

/-- Python substring containment, `pat in data`. -/
def containsSub (pat : List Char) : List Char → Bool
  | [] => pat.isEmpty
  | c :: rest => pat.isPrefixOf (c :: rest) || containsSub pat rest

/-- The result of `re.search` with pattern `literal ++ "(.*)"`: the
characters after the first (leftmost) occurrence of the literal, up to
but excluding the next newline; `none` when the literal does not occur
(in the source, `.group(1)` on the `None` match then raises). -/
def afterFirst (pat : List Char) : List Char → Option (List Char)
  | [] => if pat.isEmpty then some [] else none
  | c :: rest =>
    if pat.isPrefixOf (c :: rest) then
      some (((c :: rest).drop pat.length).takeWhile (fun ch => ch != '\n'))
    else afterFirst pat rest

theorem afterFirst_eq_none {pat : List Char} :
    ∀ {s : List Char}, containsSub pat s = false → afterFirst pat s = none := by
  intro s
  induction s with
  | nil =>
    intro h
    simp only [containsSub] at h
    simp [afterFirst, h]
  | cons c rest ih =>
    intro h
    simp only [containsSub, Bool.or_eq_false_iff] at h
    simp [afterFirst, h.1, ih h.2]

/-- Whitespace for Python's `str.strip`. -/
def isPySpace (c : Char) : Bool :=
  c == ' ' || c == '\t' || c == '\n' || c == '\r'
    || c.toNat == 11 || c.toNat == 12

/-- Python `str.strip`: remove leading and trailing whitespace. -/
def stripChars (s : List Char) : List Char :=
  ((s.dropWhile isPySpace).reverse.dropWhile isPySpace).reverse

/-- Python `', '.join`. -/
def joinCommaSpace : List (List Char) → List Char
  | [] => []
  | [x] => x
  | x :: xs => x ++ ", ".data ++ joinCommaSpace xs

def upgradeHdr : List Char := "Upgrade: websocket".data
def connHdr : List Char := "Connection: Upgrade".data
def keyHdr : List Char := "Sec-WebSocket-Key: ".data
def extHdr : List Char := "Sec-WebSocket-Extensions: ".data
def protoHdr : List Char := "Sec-WebSocket-Protocol: ".data

/-- The attributes of the `WebSocketServer` object that `handshake`
assigns.  One such object is shared by all connections: every
connection thread receives the same `self`. -/
structure ServerState where
  extensions : List (List Char)
  subprotocols : List (List Char)
deriving DecidableEq

/-- Model of `handshake`: requires `Upgrade: websocket` and
`Connection: Upgrade` to occur in the request (else it raises,
modelled as a `none` response); extracts and strips the
`Sec-WebSocket-Key` value (a missing key makes `.group(1)` raise);
computes the accept key; echoes back the comma-split, stripped
`Sec-WebSocket-Extensions` list — storing it in `self.extensions` —
and the first entry of `Sec-WebSocket-Protocol` — storing the list in
`self.subprotocols`.  Returns the updated server object together with
the response sent (or `none` when an exception was raised before
sending). -/
def handshake (st : ServerState) (data : List Char) :
    ServerState × Option (List Char) :=
  if containsSub upgradeHdr data && containsSub connHdr data then
    match afterFirst keyHdr data with
    | none => (st, none)
    | some keyRaw =>
      let key := stripChars keyRaw
      let response_key := (generate_accept_key (key.map Char.toNat)).map Char.ofNat
      let resp1 :=
        "HTTP/1.1 101 Switching Protocols\r\nUpgrade: websocket\r\nConnection: Upgrade\r\nSec-WebSocket-Accept: ".data
          ++ response_key ++ "\r\n".data
      let step2 : ServerState × List Char :=
        match afterFirst extHdr data with
        | some e =>
          let exts := (List.splitOn ',' e).map stripChars
          ({ st with extensions := exts },
            resp1 ++ "Sec-WebSocket-Extensions: ".data
              ++ joinCommaSpace exts ++ "\r\n".data)
        | none => (st, resp1)
      let step3 : ServerState × List Char :=
        match afterFirst protoHdr data with
        | some pr =>
          let prs := (List.splitOn ',' pr).map stripChars
          ({ step2.1 with subprotocols := prs },
            step2.2 ++ "Sec-WebSocket-Protocol: ".data
              ++ prs.headD [] ++ "\r\n".data)
        | none => step2
      (step3.1, some (step3.2 ++ "\r\n".data))
  else (st, none)

/-- The frames written by the loop, as the byte sequences
`send_frame` produces. -/
def sentBytes (outs : List Out) : List (List Nat) :=
  outs.filterMap (fun o =>
    match o with
    | .send op p => some (send_frame p op)
    | .deliver _ _ => none)

/-- Everything `handle_client` writes to the socket: nothing when
`handshake` raises (the exception is caught and the socket closed),
otherwise the 101 response followed by the frames of
`handle_websocket_frames`. -/
def handle_client_sends (st : ServerState) (data : List Char)
    (frames : List Frame) : List (List Nat) :=
  match handshake st data with
  | (_, none) => []
  | (_, some resp) => resp.map Char.toNat :: sentBytes (run ⟨[], none⟩ frames).1

/-- C8: an upgrade request containing `Upgrade: websocket` and
`Connection: Upgrade` but no `Sec-WebSocket-Key` header makes the
handshake raise (the `re.search` for the key returns no match):
no response is produced, the server state is untouched, and
`handle_client` sends no bytes and no frames at all before closing
the connection. -/
theorem missing_key_closes_without_response (st : ServerState)
    (data : List Char) (frames : List Frame)
    (h1 : containsSub upgradeHdr data = true)
    (h2 : containsSub connHdr data = true)
    (h3 : containsSub keyHdr data = false) :
    handshake st data = (st, none)
    ∧ handle_client_sends st data frames = [] := by
  have hk : afterFirst keyHdr data = none := afterFirst_eq_none h3
  have hh : handshake st data = (st, none) := by
    simp [handshake, h1, h2, hk]
  exact ⟨hh, by simp [handle_client_sends, hh]⟩

/-- Witness for C8: a concrete upgrade request with both upgrade
headers but no key header produces no response and no sent bytes. -/
theorem missing_key_closes_without_response_witness :
    handshake ⟨[], []⟩ ("GET / HTTP/1.1\r\nUpgrade: websocket\r\nConnection: Upgrade\r\n\r\n").data
      = (⟨[], []⟩, none)
    ∧ handle_client_sends ⟨[], []⟩
        ("GET / HTTP/1.1\r\nUpgrade: websocket\r\nConnection: Upgrade\r\n\r\n").data
        [⟨true, 9, false, 0, []⟩] = [] :=
  missing_key_closes_without_response ⟨[], []⟩ _ _
    (by decide) (by decide) (by decide)

/-- Upgrade request of a first connection, offering extension `foo`
and subprotocol `chat`. -/
def reqA : List Char :=
  "GET / HTTP/1.1\r\nUpgrade: websocket\r\nConnection: Upgrade\r\nSec-WebSocket-Key: AAAA\r\nSec-WebSocket-Extensions: foo\r\nSec-WebSocket-Protocol: chat\r\n\r\n".data

/-- Upgrade request of a second connection, offering extension `bar`
and subprotocol `other`. -/
def reqB : List Char :=
  "GET / HTTP/1.1\r\nUpgrade: websocket\r\nConnection: Upgrade\r\nSec-WebSocket-Key: BBBB\r\nSec-WebSocket-Extensions: bar\r\nSec-WebSocket-Protocol: other\r\n\r\n".data

set_option maxRecDepth 200000 in
/-- C9 fails on the code: `handshake` stores the negotiated
extensions and subprotocols in `self.extensions` /
`self.subprotocols` on the `WebSocketServer` object shared by all
connection threads.  After connection A negotiates extensions
`["foo"]` and subprotocols `["chat"]`, connection B's handshake on
the same server object overwrites them with `["bar"]` / `["other"]`:
the negotiated values observed for connection A are changed by
another connection's handshake. -/
theorem handshake_overwrites_shared_negotiation :
    (handshake ⟨[], []⟩ reqA).1.extensions = ["foo".data]
    ∧ (handshake ⟨[], []⟩ reqA).1.subprotocols = ["chat".data]
    ∧ (handshake (handshake ⟨[], []⟩ reqA).1 reqB).1.extensions = ["bar".data]
    ∧ (handshake (handshake ⟨[], []⟩ reqA).1 reqB).1.subprotocols = ["other".data]
    ∧ ("foo".data ≠ "bar".data ∧ "chat".data ≠ "other".data) := by
  decide

end WS
